import Mathlib

/-!
# kiagnose: console login and ConfigMap parsing

A shallow embedding of

* `checkups/kubevirt-vm-latency/vmlatency/internal/console/console.go`
  (`Console.LoginToFedora`, `Console.newExpecter`, `configureConsole`, `RetValue`), and
* `kiagnose/internal/config/cmparser.go`
  (`configMapParser.Parse` and the field parsers it calls).

The serial console and the goexpect session are external: every call made on them is
recorded in a trace (`List Op`), and its result is given by an environment that may
depend on all the calls issued before it.  The `log.Printf` calls, the batch results that
are only ever passed to them, and the goroutine of `newExpecter` that streams the console
into the pipes are left out.

goexpect, `time.ParseDuration` and the functions of package `strings` are libraries, not
code of this repository: `ExpectBatch` is an arbitrary function of the environment,
`ParseDuration` is a parameter, and `TrimSpace`, `Split`, `HasPrefix` and `TrimPrefix` are
modelled after their documentation.
-/

namespace Kiagnose

/-! ## Durations (`time.Duration`, nanoseconds) -/

/-- A `time.Duration`: a count of nanoseconds. -/
abbrev Duration := Int

/-- Value of `time.Second`. -/
def Second : Duration := 1000000000

/-- Value of `time.Minute`. -/
def Minute : Duration := 60 * Second

/-! ## The goexpect data used by the console code -/

/-- The gRPC status codes that occur (`google.golang.org/grpc/codes`). -/
inductive Code where
  | OK
  | Unknown
  | PermissionDenied
  | Unimplemented
  deriving DecidableEq

/-- A goexpect `Status`: a code and a message. -/
structure Status where
  code : Code
  msg : String
  deriving DecidableEq

/-- Constructor `expect.NewStatus`. -/
def NewStatus (code : Code) (msg : String) : Status := ⟨code, msg⟩

/-- The goexpect case tags. -/
inductive Tag where
  | OKTag
  | FailTag
  | ContinueTag
  | NextTag
  | NoTag
  deriving DecidableEq

/-- What a case's `T` function yields when called: the message it logs (if any), the tag
and the status. -/
structure TagResult where
  logged : Option String
  tag : Tag
  status : Status
  deriving DecidableEq

/-- Tag function `expect.OK()`. -/
def OK : TagResult := ⟨none, Tag.OKTag, NewStatus Code.OK "state reached"⟩

/-- Tag function `expect.Next()`. -/
def Next : TagResult :=
  ⟨none, Tag.NextTag, NewStatus Code.Unimplemented "Next returns not implemented"⟩

/-- Tag function `expect.LogContinue(msg, s)`: logs `msg`, yields the Continue tag and `s`. -/
def LogContinue (msg : String) (s : Status) : TagResult := ⟨some msg, Tag.ContinueTag, s⟩

/-- An `expect.Case`: pattern `R`, string `S` to send on a match, tag function `T`, and the
retry count `Rt` (zero when the literal leaves it out). -/
structure Case where
  R : String
  S : String
  T : TagResult
  Rt : Int
  deriving DecidableEq

/-- The batch steps used: `expect.BSnd`, `expect.BExp` and `expect.BCas`. -/
inductive Batcher where
  | BSnd (S : String)
  | BExp (R : String)
  | BCas (C : List Case)
  deriving DecidableEq

/-- An error value: a goexpect timeout, a status error, or any other error (transport). -/
inductive Error where
  | timeout (d : Duration)
  | status (s : Status)
  | other (msg : String)
  deriving DecidableEq

/-! ## The external calls and the environment -/

/-- The calls `LoginToFedora` makes on the client and on the expecter. -/
inductive Op where
  | SerialConsole (ns name : String) (timeout : Duration)
  | SpawnGeneric (timeout : Duration)
  | Send (s : String)
  | ExpectBatch (batch : List Batcher) (timeout : Duration)
  | Close
  deriving DecidableEq

/-- The outside world: the error (or `none` for nil) each call returns, given the calls
issued before it, and the time `time.Since(startTime)` measured in `newExpecter`. -/
structure Env where
  respond : List Op → Op → Option Error
  elapsed : Duration

/-- Issue one call: its result, and the trace extended by it. -/
def call (env : Env) (tr : List Op) (op : Op) : Option Error × List Op :=
  (env.respond tr op, tr ++ [op])

/-- The fields of the `VirtualMachineInstance` that are read. -/
structure VirtualMachineInstance where
  Namespace : String
  Name : String
  deriving DecidableEq

/-- The `Console` struct; its client is the environment. -/
structure Console where
  vmi : VirtualMachineInstance
  deriving DecidableEq

/-! ## console.go -/

/-- Constant `PromptExpression`. -/
def PromptExpression : String := "(\\$ |\\# )"

/-- Constant `CRLF`. -/
def CRLF : String := "\r\n"

/-- Function `RetValue`. -/
def RetValue (retcode : String) : String :=
  "\n" ++ retcode ++ CRLF ++ ".*" ++ PromptExpression

/-- The batch built in `configureConsole`. -/
def configureBatch : List Batcher :=
  [ Batcher.BSnd "stty cols 500 rows 500\n",
    Batcher.BExp PromptExpression,
    Batcher.BSnd "echo $?\n",
    Batcher.BExp (RetValue "0"),
    Batcher.BSnd "dmesg -n 1\n",
    Batcher.BExp PromptExpression,
    Batcher.BSnd "echo $?\n",
    Batcher.BExp (RetValue "0") ]

/-- Constant `batchTimeout` of `configureConsole`. -/
def batchTimeout : Duration := 30 * Second

/-- Function `configureConsole`: one `ExpectBatch`, whose error is returned. -/
def configureConsole (env : Env) (tr : List Op) : Option Error × List Op :=
  call env tr (Op.ExpectBatch configureBatch batchTimeout)

/-- Function `Console.newExpecter`: open the serial console, then spawn the expecter with
what is left of the timeout. -/
def newExpecter (env : Env) (c : Console) (timeout : Duration) (tr : List Op) :
    Option Error × List Op :=
  match call env tr (Op.SerialConsole c.vmi.Namespace c.vmi.Name timeout) with
  | (some err, tr) => (some err, tr)
  | (none, tr) =>
    let timeout := timeout - env.elapsed
    call env tr (Op.SpawnGeneric timeout)

/-- Constant `connectTimeout`. -/
def connectTimeout : Duration := 10 * Second

/-- Constant `batchIsLoggedTimeout`. -/
def batchIsLoggedTimeout : Duration := 5 * Second

/-- Constant `batchLoginTimeout`. -/
def batchLoginTimeout : Duration := 2 * Minute

/-- The deadline of the second execution of the login batch, `1*time.Minute`. -/
def retryLoginTimeout : Duration := 1 * Minute

/-- The first batch of `LoginToFedora` (are we logged in already?). -/
def probeBatch (c : Console) : List Batcher :=
  [ Batcher.BSnd "\n",
    Batcher.BExp ("(\\[fedora@(localhost|fedora|" ++ c.vmi.Name ++
      ") ~\\]\\$ |\\[root@(localhost|fedora|" ++ c.vmi.Name ++ ") fedora\\]\\# )") ]

/-- The cases of the `BCas` step of the login batch. -/
def loginCases (vmi : VirtualMachineInstance) : List Case :=
  [ { R := "(localhost|fedora|" ++ vmi.Name ++ ") login: ",
      S := "fedora\n",
      T := Next,
      Rt := 10 },
    { R := "Password:",
      S := "fedora\n",
      T := Next,
      Rt := 10 },
    { R := "Login incorrect",
      S := "",
      T := LogContinue "Failed to log in" (NewStatus Code.PermissionDenied "login failed"),
      Rt := 10 },
    { R := "\\[fedora@(localhost|fedora|" ++ vmi.Name ++ ") ~\\]\\$ ",
      S := "",
      T := OK,
      Rt := 0 } ]

/-- The second batch of `LoginToFedora` (the login dialogue and `sudo su`). -/
def loginBatch (vmi : VirtualMachineInstance) : List Batcher :=
  [ Batcher.BSnd "\n",
    Batcher.BSnd "\n",
    Batcher.BCas (loginCases vmi),
    Batcher.BSnd "sudo su\n",
    Batcher.BExp PromptExpression ]

/-- The body of `LoginToFedora` after `defer expecter.Close()` is registered. -/
def loginSteps (env : Env) (c : Console) (tr : List Op) : Option Error × List Op :=
  match call env tr (Op.Send "\n") with
  | (some e, tr) => (some e, tr)
  | (none, tr) =>
    match call env tr (Op.ExpectBatch (probeBatch c) batchIsLoggedTimeout) with
    | (none, tr) => (none, tr)
    | (some _, tr) =>
      let vmi := c.vmi
      let b := loginBatch vmi
      match call env tr (Op.ExpectBatch b batchLoginTimeout) with
      | (some _, tr) =>
        match call env tr (Op.ExpectBatch b retryLoginTimeout) with
        | (some err, tr) => (some err, tr)
        | (none, tr) => configureConsole env tr
      | (none, tr) => configureConsole env tr

/-- Method `Console.LoginToFedora`: the returned error and the trace of all calls made.
The deferred `Close` runs after the body on every path on which it was registered. -/
def LoginToFedora (env : Env) (c : Console) : Option Error × List Op :=
  match newExpecter env c connectTimeout [] with
  | (some err, tr) => (some err, tr)
  | (none, tr) =>
    let (r, tr) := loginSteps env c tr
    (r, (call env tr Op.Close).2)

/-! ## What goexpect does with a matching case

The library (github.com/google/goexpect) documents the tags as: OK "marks the desired state
was reached", Fail "means reached failing state", Continue "will recheck for matches",
Next "skips match and continues to the next one"; and `Case.Rt` as the "number of times to
retry, only used for cases tagged with Continue". In its `ExpectSwitchCase`, on a case
whose pattern matched: a case tagged Next is skipped once its retries are used up, and
otherwise matching starts over; a case tagged OK, Fail or NoTag returns its status; a case
tagged Continue starts matching over while retries are left, and returns its status when
none is. This section models the library, whose source is not part of the repository. -/

/-- Method `Status.Err`: nil for the OK code, the status as an error otherwise. -/
def Status.Err (s : Status) : Option Error :=
  if s.code = Code.OK then none else some (Error.status s)

/-- Method `Case.Retry`: whether retries are left; the counter is decremented. -/
def Case.Retry (c : Case) : Bool × Case :=
  (decide (0 < c.Rt), { c with Rt := c.Rt - 1 })

/-- Outcome of a match of one case inside `ExpectSwitchCase`. -/
inductive Verdict where
  | skipped
  | again
  | returned (err : Option Error)
  deriving DecidableEq

/-- The tag handling of `ExpectSwitchCase` for a case whose pattern matched. -/
def onMatch (c : Case) : Verdict × Case :=
  match c.T.tag with
  | Tag.NextTag =>
    let (r, c1) := c.Retry
    if r then (Verdict.again, c1) else (Verdict.skipped, c1)
  | Tag.ContinueTag =>
    let (r, c1) := c.Retry
    if r then (Verdict.again, c1) else (Verdict.returned c.T.status.Err, c1)
  | _ => (Verdict.returned c.T.status.Err, c)

/-- The outcome of the match number `n` (counted from zero) of the same case. -/
def nthMatch (c : Case) : Nat → Verdict × Case
  | 0 => onMatch c
  | n + 1 => nthMatch (onMatch c).2 n

/-! ## Observations on a run -/

/-- Number of executions of the login batch of `vmi` in a trace. -/
def loginExecutions (vmi : VirtualMachineInstance) (tr : List Op) : Nat :=
  tr.countP (fun op =>
    match op with
    | Op.ExpectBatch b _ => decide (b = loginBatch vmi)
    | _ => false)

/-- The deadlines of the executions of the login batch of `vmi` in a trace, in order. -/
def loginDeadlines (vmi : VirtualMachineInstance) (tr : List Op) : List Duration :=
  tr.filterMap (fun op =>
    match op with
    | Op.ExpectBatch b t => if b = loginBatch vmi then some t else none
    | _ => none)

/-- Number of executions of the configuration batch in a trace. -/
def configExecutions (tr : List Op) : Nat :=
  tr.countP (fun op =>
    match op with
    | Op.ExpectBatch b _ => decide (b = configureBatch)
    | _ => false)

/-- Number of `Close` calls in a trace. -/
def closeCalls (tr : List Op) : Nat :=
  tr.countP (fun op => decide (op = Op.Close))

/-- The two calls of `newExpecter` made by `LoginToFedora`. -/
def openCalls (env : Env) (c : Console) : List Op :=
  [ Op.SerialConsole c.vmi.Namespace c.vmi.Name (10 * Second),
    Op.SpawnGeneric (10 * Second - env.elapsed) ]

/-- The serial console opens: the first call of a run returns no error. -/
def ConsoleOpens (env : Env) (c : Console) : Prop :=
  env.respond [] (Op.SerialConsole c.vmi.Namespace c.vmi.Name (10 * Second)) = none

/-- The expecter is spawned on the open console without error. -/
def ExpecterSpawns (env : Env) (c : Console) : Prop :=
  env.respond [Op.SerialConsole c.vmi.Namespace c.vmi.Name (10 * Second)]
    (Op.SpawnGeneric (10 * Second - env.elapsed)) = none

/-- Result of the initial newline send of a run on an open session. -/
def sendResult (env : Env) (c : Console) : Option Error :=
  env.respond (openCalls env c) (Op.Send "\n")

/-- The calls of a run up to and including the initial newline send. -/
def sentCalls (env : Env) (c : Console) : List Op :=
  openCalls env c ++ [Op.Send "\n"]

/-- The probe batch and its deadline, as one call. -/
def probeCall (c : Console) : Op :=
  Op.ExpectBatch (probeBatch c) (5 * Second)

/-- Result of the probe batch of a run whose newline send succeeded. -/
def probeResult (env : Env) (c : Console) : Option Error :=
  env.respond (sentCalls env c) (probeCall c)

/-- The calls of a run up to and including the probe batch. -/
def probedCalls (env : Env) (c : Console) : List Op :=
  sentCalls env c ++ [probeCall c]

/-- The execution of the login batch with deadline `t`, as one call. -/
def loginCall (c : Console) (t : Duration) : Op :=
  Op.ExpectBatch (loginBatch c.vmi) t

/-- Result of the first execution of the login batch (2 minutes) after a failed probe. -/
def firstLoginResult (env : Env) (c : Console) : Option Error :=
  env.respond (probedCalls env c) (loginCall c (2 * Minute))

/-- Result of the second execution of the login batch (1 minute). -/
def secondLoginResult (env : Env) (c : Console) : Option Error :=
  env.respond (probedCalls env c ++ [loginCall c (2 * Minute)]) (loginCall c (1 * Minute))

/-- The calls of a run up to and including the second execution of the login batch. -/
def retriedCalls (env : Env) (c : Console) : List Op :=
  probedCalls env c ++ [loginCall c (2 * Minute), loginCall c (1 * Minute)]

/-- The configuration batch and its deadline, as one call. -/
def configCall : Op :=
  Op.ExpectBatch configureBatch (30 * Second)

/-! ## Sample runs -/

/-- A sample console. -/
def sampleConsole : Console := ⟨⟨"default", "vm-a"⟩⟩

/-- The serial console cannot be opened. -/
def envNoConsole : Env where
  respond := fun _ op =>
    match op with
    | Op.SerialConsole _ _ _ => some (Error.other "dial failed")
    | _ => none
  elapsed := Second

/-- The guest is already at a shell prompt: every call succeeds. -/
def envLoggedIn : Env where
  respond := fun _ _ => none
  elapsed := Second

/-- The probe times out, the first execution of the login batch ends in PermissionDenied,
every later call succeeds. -/
def envDeniedOnce : Env where
  respond := fun tr op =>
    match op with
    | Op.ExpectBatch _ t =>
      if tr.length = 3 then some (Error.timeout t)
      else if tr.length = 4 then
        some (Error.status (NewStatus Code.PermissionDenied "login failed"))
      else none
    | _ => none
  elapsed := Second

/-- Every batch times out. -/
def envSilent : Env where
  respond := fun _ op =>
    match op with
    | Op.ExpectBatch _ t => some (Error.timeout t)
    | _ => none
  elapsed := Second

/-! ## Go strings and maps

A Go string is modelled by a Lean `String`, a sequence of Unicode characters (valid
UTF-8). A `map[string]string` is modelled by the list of its entries in the order in
which a `range` loop visits them; the keys of a map are distinct. -/

/-- Function `strings.HasPrefix`. -/
def HasPrefix (s pre : String) : Bool :=
  pre.data.isPrefixOf s.data

/-- Function `strings.TrimPrefix`: `s` without the leading `pre`, or `s` itself. -/
def TrimPrefix (s pre : String) : String :=
  if HasPrefix s pre then ⟨s.data.drop pre.data.length⟩ else s

/-- Function `unicode.IsSpace`: the characters with the White_Space property. -/
def isSpace (c : Char) : Bool :=
  let n := c.toNat
  (0x09 ≤ n && n ≤ 0x0d) || n == 0x20 || n == 0x85 || n == 0xa0 || n == 0x1680 ||
    (0x2000 ≤ n && n ≤ 0x200a) || n == 0x2028 || n == 0x2029 || n == 0x202f ||
    n == 0x205f || n == 0x3000

/-- Function `strings.TrimSpace`: leading and trailing white space removed. -/
def TrimSpace (s : String) : String :=
  ⟨(s.data.dropWhile isSpace).rdropWhile isSpace⟩

/-- The pieces of `s` between newlines; `cur` is the piece being read, reversed. -/
def splitNewlines : List Char → List Char → List (List Char)
  | [], cur => [cur.reverse]
  | c :: cs, cur =>
    if c = '\n' then cur.reverse :: splitNewlines cs [] else splitNewlines cs (c :: cur)

/-- Function `strings.Split` at the separator "\n". -/
def SplitNewline (s : String) : List String :=
  (splitNewlines s.data []).map String.mk

/-- Function `strings.Join`. -/
def Join (elems : List String) (sep : String) : String :=
  ⟨List.intercalate sep.data (elems.map String.data)⟩

/-- A `map[string]string`: its entries in iteration order. -/
abbrev GoMap := List (String × String)

/-- The keys of a map, in iteration order. -/
def mapKeys (m : GoMap) : List String := m.map Prod.fst

/-- The two-valued index expression `v, ok := m[k]`. -/
def mapGet : GoMap → String → Option String
  | [], _ => none
  | (k1, v) :: m, k => if k1 = k then some v else mapGet m k

/-- The index expression `m[k]`: the empty string when the key is missing. -/
def mapIndex (m : GoMap) (k : String) : String :=
  (mapGet m k).getD ""

/-- The assignment `m[k] = v`. -/
def mapSet : GoMap → String → String → GoMap
  | [], k, v => [(k, v)]
  | (k1, v1) :: m, k, v => if k1 = k then (k1, v) :: m else (k1, v1) :: mapSet m k v

/-! ## cmparser.go -/

/-- The error values of the package. -/
inductive ConfigError where
  | ErrImageFieldIsMissing
  | ErrImageFieldIsIllegal
  | ErrTimeoutFieldIsMissing
  | ErrTimeoutFieldIsIllegal
  | ErrParamNameIsIllegal
  deriving DecidableEq

/-- What the parser takes from outside its file: the key constants of package
`kiagnose/types`, whose values are not among the sources, and `time.ParseDuration`
(`none` when it returns an error). -/
structure Imports where
  ImageKey : String
  TimeoutKey : String
  ParamNameKeyPrefix : String
  ClusterRolesKey : String
  RolesKey : String
  ParseDuration : String → Option Duration

/-- The struct `configMapParser`; a nil slice is `none`. -/
structure configMapParser where
  configMapRawData : GoMap
  Image : String
  Timeout : Duration
  Params : GoMap
  ClusterRoleNames : Option (List String)
  RoleNames : Option (List String)
  deriving DecidableEq

/-- Function `newConfigMapParser`. -/
def newConfigMapParser (configMapRawData : GoMap) : configMapParser :=
  { configMapRawData := configMapRawData,
    Image := "",
    Timeout := 0,
    Params := [],
    ClusterRoleNames := none,
    RoleNames := none }

/-- Method `parseImageField`. -/
def parseImageField (I : Imports) (cmp : configMapParser) :
    Option ConfigError × configMapParser :=
  let found := mapGet cmp.configMapRawData I.ImageKey
  let cmp := { cmp with Image := found.getD "" }
  if found.isNone then (some ConfigError.ErrImageFieldIsMissing, cmp)
  else if cmp.Image = "" then (some ConfigError.ErrImageFieldIsIllegal, cmp)
  else (none, cmp)

/-- Method `parseTimeoutField`. -/
def parseTimeoutField (I : Imports) (cmp : configMapParser) :
    Option ConfigError × configMapParser :=
  match mapGet cmp.configMapRawData I.TimeoutKey with
  | none => (some ConfigError.ErrTimeoutFieldIsMissing, cmp)
  | some rawTimeout =>
    match I.ParseDuration rawTimeout with
    | none => (some ConfigError.ErrTimeoutFieldIsIllegal, { cmp with Timeout := 0 })
    | some d => (none, { cmp with Timeout := d })

/-- The `range` loop of `parseParamsField` over the entries still to visit. -/
def parseParamsLoop (I : Imports) : List (String × String) → configMapParser →
    Option ConfigError × configMapParser
  | [], cmp => (none, cmp)
  | (k, v) :: rest, cmp =>
    if HasPrefix k I.ParamNameKeyPrefix then
      let paramName := TrimPrefix k I.ParamNameKeyPrefix
      if paramName = "" then (some ConfigError.ErrParamNameIsIllegal, cmp)
      else parseParamsLoop I rest { cmp with Params := mapSet cmp.Params paramName v }
    else parseParamsLoop I rest cmp

/-- Method `parseParamsField`. -/
def parseParamsField (I : Imports) (cmp : configMapParser) :
    Option ConfigError × configMapParser :=
  parseParamsLoop I cmp.configMapRawData cmp

/-- Function `parseListSeparatedByNewlines`. -/
def parseListSeparatedByNewlines (rawString : String) : List String :=
  let trimmedString := TrimSpace rawString
  SplitNewline trimmedString

/-- Method `parseClusterRoleNamesField`. -/
def parseClusterRoleNamesField (I : Imports) (cmp : configMapParser) : configMapParser :=
  let rawClusterRoleNames := mapIndex cmp.configMapRawData I.ClusterRolesKey
  if rawClusterRoleNames ≠ "" then
    { cmp with ClusterRoleNames := some (parseListSeparatedByNewlines rawClusterRoleNames) }
  else cmp

/-- Method `parseRoleNamesField`. -/
def parseRoleNamesField (I : Imports) (cmp : configMapParser) : configMapParser :=
  let rawRoleNames := mapIndex cmp.configMapRawData I.RolesKey
  if rawRoleNames ≠ "" then
    { cmp with RoleNames := some (parseListSeparatedByNewlines rawRoleNames) }
  else cmp

/-- Method `Parse`. -/
def Parse (I : Imports) (cmp : configMapParser) : Option ConfigError × configMapParser :=
  match parseImageField I cmp with
  | (some err, cmp) => (some err, cmp)
  | (none, cmp) =>
    match parseTimeoutField I cmp with
    | (some err, cmp) => (some err, cmp)
    | (none, cmp) =>
      match parseParamsField I cmp with
      | (some err, cmp) => (some err, cmp)
      | (none, cmp) =>
        let cmp := parseClusterRoleNamesField I cmp
        let cmp := parseRoleNamesField I cmp
        (none, cmp)

/-! ## The error of `Parse`, as the specification words it -/

/-- The first error that applies, in the order image missing, image illegal, timeout
missing, timeout illegal, parameter name illegal; `none` when none applies. -/
def firstError (I : Imports) (raw : GoMap) : Option ConfigError :=
  if mapGet raw I.ImageKey = none then some ConfigError.ErrImageFieldIsMissing
  else if mapGet raw I.ImageKey = some "" then some ConfigError.ErrImageFieldIsIllegal
  else if mapGet raw I.TimeoutKey = none then some ConfigError.ErrTimeoutFieldIsMissing
  else if (mapGet raw I.TimeoutKey).bind I.ParseDuration = none then
    some ConfigError.ErrTimeoutFieldIsIllegal
  else if I.ParamNameKeyPrefix ∈ mapKeys raw then some ConfigError.ErrParamNameIsIllegal
  else none

/-- The prefixed entries of a raw map with the prefix stripped from their keys. -/
def strippedParams (I : Imports) (raw : GoMap) : GoMap :=
  (raw.filter (fun kv => HasPrefix kv.1 I.ParamNameKeyPrefix)).map
    (fun kv => (TrimPrefix kv.1 I.ParamNameKeyPrefix, kv.2))

/-! ## Sample inputs of the parser -/

/-- Sample values of the imported constants, and a `ParseDuration` that knows two
durations. -/
def sampleImports : Imports where
  ImageKey := "spec.image"
  TimeoutKey := "spec.timeout"
  ParamNameKeyPrefix := "spec.param."
  ClusterRolesKey := "spec.clusterRoles"
  RolesKey := "spec.roles"
  ParseDuration := fun s =>
    if s = "1m" then some Minute else if s = "5s" then some (5 * Second) else none

/-- A well-formed raw map with two parameters and a list of roles. -/
def sampleRaw : GoMap :=
  [ ("spec.param.b", "2"), ("spec.image", "quay.io/x:latest"), ("spec.timeout", "1m"),
    ("spec.roles", " r1\nns/r2 \n"), ("spec.param.a", "1") ]

/-! ## Theorems: console.go -/

theorem newExpecter_ok (env : Env) (c : Console) (h1 : ConsoleOpens env c)
    (h2 : ExpecterSpawns env c) :
    newExpecter env c connectTimeout [] = (none, openCalls env c) := by
  unfold ConsoleOpens at h1
  unfold ExpecterSpawns at h2
  simp [newExpecter, call, openCalls, connectTimeout, h1, h2]

theorem run_of_open (env : Env) (c : Console) (h1 : ConsoleOpens env c)
    (h2 : ExpecterSpawns env c) :
    LoginToFedora env c =
      ((loginSteps env c (openCalls env c)).1,
        (loginSteps env c (openCalls env c)).2 ++ [Op.Close]) := by
  simp [LoginToFedora, newExpecter_ok env c h1 h2, call]

theorem steps_send_fails (env : Env) (c : Console) (e : Error)
    (h3 : sendResult env c = some e) :
    loginSteps env c (openCalls env c) = (some e, sentCalls env c) := by
  unfold sendResult at h3
  simp [loginSteps, call, h3, sentCalls]

theorem steps_probe_ok (env : Env) (c : Console) (h3 : sendResult env c = none)
    (h4 : probeResult env c = none) :
    loginSteps env c (openCalls env c) = (none, probedCalls env c) := by
  unfold sendResult at h3
  unfold probeResult sentCalls probeCall at h4
  simp [loginSteps, call, h3, h4, probedCalls, sentCalls, probeCall, batchIsLoggedTimeout]

theorem steps_login_ok (env : Env) (c : Console) (e : Error) (h3 : sendResult env c = none)
    (h4 : probeResult env c = some e) (h5 : firstLoginResult env c = none) :
    loginSteps env c (openCalls env c) =
      (env.respond (probedCalls env c ++ [loginCall c (2 * Minute)]) configCall,
        probedCalls env c ++ [loginCall c (2 * Minute), configCall]) := by
  unfold sendResult at h3
  unfold probeResult sentCalls probeCall at h4
  unfold firstLoginResult probedCalls sentCalls probeCall loginCall at h5
  simp only [List.append_assoc, List.cons_append, List.nil_append, one_mul] at h5
  simp [loginSteps, call, h3, h4, h5, probedCalls, sentCalls, probeCall, loginCall,
    batchIsLoggedTimeout, batchLoginTimeout, configureConsole, configCall, batchTimeout]

theorem steps_retry_fails (env : Env) (c : Console) (e e1 e2 : Error)
    (h3 : sendResult env c = none) (h4 : probeResult env c = some e)
    (h5 : firstLoginResult env c = some e1) (h6 : secondLoginResult env c = some e2) :
    loginSteps env c (openCalls env c) = (some e2, retriedCalls env c) := by
  unfold sendResult at h3
  unfold probeResult sentCalls probeCall at h4
  unfold firstLoginResult probedCalls sentCalls probeCall loginCall at h5
  unfold secondLoginResult probedCalls sentCalls probeCall loginCall at h6
  simp only [List.append_assoc, List.cons_append, List.nil_append, one_mul] at h5 h6
  simp [loginSteps, call, h3, h4, h5, h6, probedCalls, sentCalls, probeCall, loginCall,
    batchIsLoggedTimeout, batchLoginTimeout, retryLoginTimeout, retriedCalls]

theorem steps_retry_ok (env : Env) (c : Console) (e e1 : Error)
    (h3 : sendResult env c = none) (h4 : probeResult env c = some e)
    (h5 : firstLoginResult env c = some e1) (h6 : secondLoginResult env c = none) :
    loginSteps env c (openCalls env c) =
      (env.respond (retriedCalls env c) configCall, retriedCalls env c ++ [configCall]) := by
  unfold sendResult at h3
  unfold probeResult sentCalls probeCall at h4
  unfold firstLoginResult probedCalls sentCalls probeCall loginCall at h5
  unfold secondLoginResult probedCalls sentCalls probeCall loginCall at h6
  simp only [List.append_assoc, List.cons_append, List.nil_append, one_mul] at h5 h6
  simp [loginSteps, call, h3, h4, h5, h6, probedCalls, sentCalls, probeCall, loginCall,
    batchIsLoggedTimeout, batchLoginTimeout, retryLoginTimeout, retriedCalls,
    configureConsole, configCall, batchTimeout]

theorem probeBatch_ne_loginBatch (c : Console) (vmi : VirtualMachineInstance) :
    probeBatch c ≠ loginBatch vmi := by
  simp [probeBatch, loginBatch]

theorem configureBatch_ne_loginBatch (vmi : VirtualMachineInstance) :
    configureBatch ≠ loginBatch vmi := by
  simp [configureBatch, loginBatch]

theorem probeBatch_ne_configureBatch (c : Console) : probeBatch c ≠ configureBatch := by
  simp [probeBatch, configureBatch]

theorem loginBatch_ne_configureBatch (vmi : VirtualMachineInstance) :
    loginBatch vmi ≠ configureBatch := by
  simp [configureBatch, loginBatch]

/-- Whatever error the first execution of the login batch ends in, the batch is executed a
second time, never a third, and the outcome of the run is decided by the second execution. -/
theorem run_first_login_fails (env : Env) (c : Console) (e e1 : Error)
    (h1 : ConsoleOpens env c) (h2 : ExpecterSpawns env c) (h3 : sendResult env c = none)
    (h4 : probeResult env c = some e) (h5 : firstLoginResult env c = some e1) :
    loginExecutions c.vmi (LoginToFedora env c).2 = 2 ∧
    (∀ e2, secondLoginResult env c = some e2 →
      LoginToFedora env c = (some e2, retriedCalls env c ++ [Op.Close]) ∧
      configExecutions (LoginToFedora env c).2 = 0) ∧
    (secondLoginResult env c = none →
      LoginToFedora env c =
        (env.respond (retriedCalls env c) configCall,
          retriedCalls env c ++ [configCall, Op.Close]) ∧
      configExecutions (LoginToFedora env c).2 = 1) := by
  have hA : ∀ e2, secondLoginResult env c = some e2 →
      LoginToFedora env c = (some e2, retriedCalls env c ++ [Op.Close]) := by
    intro e2 h6
    rw [run_of_open env c h1 h2, steps_retry_fails env c e e1 e2 h3 h4 h5 h6]
  have hB : secondLoginResult env c = none →
      LoginToFedora env c =
        (env.respond (retriedCalls env c) configCall,
          retriedCalls env c ++ [configCall, Op.Close]) := by
    intro h6
    rw [run_of_open env c h1 h2, steps_retry_ok env c e e1 h3 h4 h5 h6]
    simp
  have hp := probeBatch_ne_loginBatch c c.vmi
  have hq := configureBatch_ne_loginBatch c.vmi
  have hr := probeBatch_ne_configureBatch c
  have hs := loginBatch_ne_configureBatch c.vmi
  refine ⟨?_, ?_, ?_⟩
  · cases h6 : secondLoginResult env c with
    | none =>
      rw [hB h6]
      simp [loginExecutions, retriedCalls, probedCalls, sentCalls, openCalls, probeCall,
        loginCall, configCall, List.countP_cons, hp, hq]
    | some e2 =>
      rw [hA e2 h6]
      simp [loginExecutions, retriedCalls, probedCalls, sentCalls, openCalls, probeCall,
        loginCall, List.countP_cons, hp]
  · intro e2 h6
    refine ⟨hA e2 h6, ?_⟩
    rw [hA e2 h6]
    simp [configExecutions, retriedCalls, probedCalls, sentCalls, openCalls, probeCall,
      loginCall, List.countP_cons, hr, hs]
  · intro h6
    refine ⟨hB h6, ?_⟩
    rw [hB h6]
    simp [configExecutions, retriedCalls, probedCalls, sentCalls, openCalls, probeCall,
      loginCall, configCall, List.countP_cons, hr, hs]

/-! ### C3: already logged in -/

/-- C3: when the console opens, the initial newline send succeeds and the probe batch
(send a newline, expect the fedora-user-or-root shell prompt, 5 seconds) succeeds,
`LoginToFedora` returns nil and the session sees only the newline send and that one probe
batch before `Close`: neither the login batch nor the configuration batch is executed. -/
theorem LoginToFedora_already_logged_in (env : Env) (c : Console)
    (h1 : ConsoleOpens env c) (h2 : ExpecterSpawns env c) (h3 : sendResult env c = none)
    (h4 : probeResult env c = none) :
    LoginToFedora env c =
      (none,
        [ Op.SerialConsole c.vmi.Namespace c.vmi.Name (10 * Second),
          Op.SpawnGeneric (10 * Second - env.elapsed),
          Op.Send "\n",
          Op.ExpectBatch
            [ Batcher.BSnd "\n",
              Batcher.BExp ("(\\[fedora@(localhost|fedora|" ++ c.vmi.Name ++
                ") ~\\]\\$ |\\[root@(localhost|fedora|" ++ c.vmi.Name ++ ") fedora\\]\\# )") ]
            (5 * Second),
          Op.Close ]) ∧
    loginExecutions c.vmi (LoginToFedora env c).2 = 0 ∧
    configExecutions (LoginToFedora env c).2 = 0 := by
  have hp := probeBatch_ne_loginBatch c c.vmi
  have hr := probeBatch_ne_configureBatch c
  rw [run_of_open env c h1 h2, steps_probe_ok env c h3 h4]
  refine ⟨?_, ?_, ?_⟩
  · simp [probedCalls, sentCalls, openCalls, probeCall, probeBatch]
  · simp [loginExecutions, probedCalls, sentCalls, openCalls, probeCall, List.countP_cons, hp]
  · simp [configExecutions, probedCalls, sentCalls, openCalls, probeCall, List.countP_cons, hr]

/-- C3 witness: a guest that is already at its prompt. -/
theorem LoginToFedora_already_logged_in_witness :
    ConsoleOpens envLoggedIn sampleConsole ∧ ExpecterSpawns envLoggedIn sampleConsole ∧
    sendResult envLoggedIn sampleConsole = none ∧
    probeResult envLoggedIn sampleConsole = none ∧
    (LoginToFedora envLoggedIn sampleConsole).1 = none ∧
    loginExecutions sampleConsole.vmi (LoginToFedora envLoggedIn sampleConsole).2 = 0 :=
  have h := LoginToFedora_already_logged_in envLoggedIn sampleConsole rfl rfl rfl rfl
  ⟨rfl, rfl, rfl, rfl, by rw [h.1], h.2.1⟩

/-! ### C4: a timeout of the login batch is retried once -/

/-- C4: when the probe batch fails and the first execution of the login batch fails with a
timeout, the login batch is executed exactly twice; if the second execution fails its error
is returned and the configuration batch is not executed, and if it succeeds the
configuration batch is executed once and its result is returned. -/
theorem LoginToFedora_timeout_retried_once (env : Env) (c : Console) (e : Error)
    (d : Duration) (h1 : ConsoleOpens env c) (h2 : ExpecterSpawns env c)
    (h3 : sendResult env c = none) (h4 : probeResult env c = some e)
    (h5 : firstLoginResult env c = some (Error.timeout d)) :
    loginExecutions c.vmi (LoginToFedora env c).2 = 2 ∧
    (∀ e2, secondLoginResult env c = some e2 →
      LoginToFedora env c = (some e2, retriedCalls env c ++ [Op.Close]) ∧
      configExecutions (LoginToFedora env c).2 = 0) ∧
    (secondLoginResult env c = none →
      LoginToFedora env c =
        (env.respond (retriedCalls env c) configCall,
          retriedCalls env c ++ [configCall, Op.Close]) ∧
      configExecutions (LoginToFedora env c).2 = 1) :=
  run_first_login_fails env c e (Error.timeout d) h1 h2 h3 h4 h5

/-- C4 witness: a console on which every batch times out. -/
theorem LoginToFedora_timeout_retried_once_witness :
    ConsoleOpens envSilent sampleConsole ∧ ExpecterSpawns envSilent sampleConsole ∧
    sendResult envSilent sampleConsole = none ∧
    probeResult envSilent sampleConsole = some (Error.timeout (5 * Second)) ∧
    firstLoginResult envSilent sampleConsole = some (Error.timeout (2 * Minute)) ∧
    loginExecutions sampleConsole.vmi (LoginToFedora envSilent sampleConsole).2 = 2 ∧
    (LoginToFedora envSilent sampleConsole).1 = some (Error.timeout (1 * Minute)) :=
  have h := LoginToFedora_timeout_retried_once envSilent sampleConsole
    (Error.timeout (5 * Second)) (2 * Minute) rfl rfl rfl rfl rfl
  ⟨rfl, rfl, rfl, rfl, rfl, h.1, by rw [(h.2.1 (Error.timeout (1 * Minute)) rfl).1]⟩

/-! ### C1: a PermissionDenied of the login batch is retried too -/

/-- C1 as stated fails: with a probe that times out and a first execution of the login
batch that ends in PermissionDenied, the login batch is executed twice, and the
PermissionDenied error is not what is returned (here the retry and the configuration
succeed, and nil is returned). -/
theorem LoginToFedora_denied_counterexample :
    ConsoleOpens envDeniedOnce sampleConsole ∧ ExpecterSpawns envDeniedOnce sampleConsole ∧
    sendResult envDeniedOnce sampleConsole = none ∧
    probeResult envDeniedOnce sampleConsole = some (Error.timeout (5 * Second)) ∧
    firstLoginResult envDeniedOnce sampleConsole =
      some (Error.status (NewStatus Code.PermissionDenied "login failed")) ∧
    LoginToFedora envDeniedOnce sampleConsole =
      (none,
        [ Op.SerialConsole "default" "vm-a" (10 * Second),
          Op.SpawnGeneric (10 * Second - Second),
          Op.Send "\n",
          Op.ExpectBatch (probeBatch sampleConsole) (5 * Second),
          Op.ExpectBatch (loginBatch sampleConsole.vmi) (2 * Minute),
          Op.ExpectBatch (loginBatch sampleConsole.vmi) (1 * Minute),
          Op.ExpectBatch configureBatch (30 * Second),
          Op.Close ]) ∧
    loginExecutions sampleConsole.vmi (LoginToFedora envDeniedOnce sampleConsole).2 = 2 := by
  refine ⟨rfl, rfl, rfl, rfl, rfl, rfl, ?_⟩
  decide

/-- C1 amended: when the console opens, the initial newline send succeeds, the probe batch
fails and the first execution of the login batch fails with a PermissionDenied error, the
login batch is executed exactly twice; the run returns the error of the second execution
if that fails, and otherwise the result of the configuration batch. -/
theorem LoginToFedora_denied_retried_once (env : Env) (c : Console) (e : Error)
    (st : Status) (_hst : st.code = Code.PermissionDenied)
    (h1 : ConsoleOpens env c) (h2 : ExpecterSpawns env c)
    (h3 : sendResult env c = none) (h4 : probeResult env c = some e)
    (h5 : firstLoginResult env c = some (Error.status st)) :
    loginExecutions c.vmi (LoginToFedora env c).2 = 2 ∧
    (∀ e2, secondLoginResult env c = some e2 →
      LoginToFedora env c = (some e2, retriedCalls env c ++ [Op.Close])) ∧
    (secondLoginResult env c = none →
      LoginToFedora env c =
        (env.respond (retriedCalls env c) configCall,
          retriedCalls env c ++ [configCall, Op.Close])) :=
  have h := run_first_login_fails env c e (Error.status st) h1 h2 h3 h4 h5
  ⟨h.1, fun e2 h6 => (h.2.1 e2 h6).1, fun h6 => (h.2.2 h6).1⟩

/-- C1 amended, witness: the run in which the first execution ends in PermissionDenied. -/
theorem LoginToFedora_denied_retried_once_witness :
    firstLoginResult envDeniedOnce sampleConsole =
      some (Error.status (NewStatus Code.PermissionDenied "login failed")) ∧
    loginExecutions sampleConsole.vmi (LoginToFedora envDeniedOnce sampleConsole).2 = 2 :=
  ⟨rfl, (LoginToFedora_denied_retried_once envDeniedOnce sampleConsole
    (Error.timeout (5 * Second)) (NewStatus Code.PermissionDenied "login failed")
    rfl rfl rfl rfl rfl rfl).1⟩

/-! ### C2: the deferred Close -/

/-- The traces of the runs on an open session: the five paths through the body. -/
theorem open_run_cases (env : Env) (c : Console) (h1 : ConsoleOpens env c)
    (h2 : ExpecterSpawns env c) :
    (LoginToFedora env c).2 = sentCalls env c ++ [Op.Close] ∨
    (LoginToFedora env c).2 = probedCalls env c ++ [Op.Close] ∨
    (LoginToFedora env c).2 =
      probedCalls env c ++ [loginCall c (2 * Minute), configCall, Op.Close] ∨
    (LoginToFedora env c).2 = retriedCalls env c ++ [Op.Close] ∨
    (LoginToFedora env c).2 = retriedCalls env c ++ [configCall, Op.Close] := by
  rw [run_of_open env c h1 h2]
  cases h3 : sendResult env c with
  | some e => rw [steps_send_fails env c e h3]; simp
  | none =>
    cases h4 : probeResult env c with
    | none => rw [steps_probe_ok env c h3 h4]; simp
    | some e =>
      cases h5 : firstLoginResult env c with
      | none => rw [steps_login_ok env c e h3 h4 h5]; simp
      | some e1 =>
        cases h6 : secondLoginResult env c with
        | none => rw [steps_retry_ok env c e e1 h3 h4 h5 h6]; simp
        | some e2 => rw [steps_retry_fails env c e e1 e2 h3 h4 h5 h6]; simp

/-- The traces of the runs in which no session comes to exist. -/
theorem closed_run_cases (env : Env) (c : Console)
    (h : ¬ (ConsoleOpens env c ∧ ExpecterSpawns env c)) :
    (LoginToFedora env c).2 = [Op.SerialConsole c.vmi.Namespace c.vmi.Name (10 * Second)] ∨
    (LoginToFedora env c).2 = openCalls env c := by
  unfold ConsoleOpens ExpecterSpawns at h
  cases h1 : env.respond [] (Op.SerialConsole c.vmi.Namespace c.vmi.Name (10 * Second)) with
  | some err =>
    left
    simp [LoginToFedora, newExpecter, call, connectTimeout, h1]
  | none =>
    right
    cases h2 : env.respond [Op.SerialConsole c.vmi.Namespace c.vmi.Name (10 * Second)]
        (Op.SpawnGeneric (10 * Second - env.elapsed)) with
    | some err => simp [LoginToFedora, newExpecter, call, connectTimeout, h1, h2, openCalls]
    | none => exact absurd ⟨h1, h2⟩ h

/-- C2 as stated fails: when the serial console cannot be opened, `LoginToFedora` returns
the error of `SerialConsole` and `Close` is not invoked at all. -/
theorem LoginToFedora_close_counterexample :
    ¬ ConsoleOpens envNoConsole sampleConsole ∧
    LoginToFedora envNoConsole sampleConsole =
      (some (Error.other "dial failed"),
        [Op.SerialConsole "default" "vm-a" (10 * Second)]) ∧
    closeCalls (LoginToFedora envNoConsole sampleConsole).2 = 0 := by
  refine ⟨?_, rfl, ?_⟩
  · simp [ConsoleOpens, envNoConsole]
  · decide

/-- C2 amended: in every run in which the serial console opens and the expecter is
created, `Close` is invoked exactly once, as the last call of the run, whatever the
outcome; in a run in which the serial console fails to open there is no session, `Close` is
not invoked, and the error of `SerialConsole` is returned. -/
theorem LoginToFedora_close_once (env : Env) (c : Console) :
    (ConsoleOpens env c → ExpecterSpawns env c →
      closeCalls (LoginToFedora env c).2 = 1 ∧
      (LoginToFedora env c).2.getLast? = some Op.Close) ∧
    (∀ err, env.respond [] (Op.SerialConsole c.vmi.Namespace c.vmi.Name (10 * Second))
        = some err →
      closeCalls (LoginToFedora env c).2 = 0 ∧ (LoginToFedora env c).1 = some err) := by
  constructor
  · intro h1 h2
    rcases open_run_cases env c h1 h2 with h | h | h | h | h <;> rw [h] <;>
      simp [closeCalls, List.countP_append, List.countP_cons, retriedCalls, probedCalls,
        sentCalls, openCalls, probeCall, loginCall, configCall]
  · intro err h
    simp [LoginToFedora, newExpecter, call, connectTimeout, h, closeCalls, List.countP_cons]

/-- C2 amended, witness: one run on an open console and one on a console that fails to
open. -/
theorem LoginToFedora_close_once_witness :
    (closeCalls (LoginToFedora envSilent sampleConsole).2 = 1 ∧
      (LoginToFedora envSilent sampleConsole).2.getLast? = some Op.Close) ∧
    (closeCalls (LoginToFedora envNoConsole sampleConsole).2 = 0 ∧
      (LoginToFedora envNoConsole sampleConsole).1 = some (Error.other "dial failed")) :=
  ⟨(LoginToFedora_close_once envSilent sampleConsole).1 rfl rfl,
    (LoginToFedora_close_once envNoConsole sampleConsole).2 (Error.other "dial failed") rfl⟩

/-! ### C5: the two deadlines of the login batch -/

theorem loginDeadlines_cases (env : Env) (c : Console) :
    loginDeadlines c.vmi (LoginToFedora env c).2 = [] ∨
    loginDeadlines c.vmi (LoginToFedora env c).2 = [2 * Minute] ∨
    loginDeadlines c.vmi (LoginToFedora env c).2 = [2 * Minute, 1 * Minute] := by
  have hp := probeBatch_ne_loginBatch c c.vmi
  have hq := configureBatch_ne_loginBatch c.vmi
  by_cases ho : ConsoleOpens env c ∧ ExpecterSpawns env c
  · rcases open_run_cases env c ho.1 ho.2 with h | h | h | h | h <;> rw [h] <;>
      simp [loginDeadlines, List.filterMap_append, List.filterMap_cons, retriedCalls,
        probedCalls, sentCalls, openCalls, probeCall, loginCall, configCall, hp, hq]
  · rcases closed_run_cases env c ho with h | h <;> rw [h] <;>
      simp [loginDeadlines, List.filterMap_cons, openCalls]

/-- C5 as stated fails: in a run in which the login batch is executed twice, the first
deadline is 2 minutes and the second is 1 minute, which is not greater than or equal to
the first. -/
theorem retry_deadline_counterexample :
    loginDeadlines sampleConsole.vmi (LoginToFedora envSilent sampleConsole).2 =
      [120000000000, 60000000000] ∧
    ¬ ((60000000000 : Duration) ≥ 120000000000) := by
  constructor
  · decide
  · decide

/-- C5 amended: whenever `LoginToFedora` executes the login batch a second time, the first
execution has a deadline of 2 minutes and the second a deadline of 1 minute, so the
deadline of the retry is less than (half of) the deadline of the first execution. -/
theorem retry_deadline_lt_first (env : Env) (c : Console) (d1 d2 : Duration)
    (ds : List Duration)
    (h : loginDeadlines c.vmi (LoginToFedora env c).2 = d1 :: d2 :: ds) :
    ds = [] ∧ d1 = 120 * Second ∧ d2 = 60 * Second ∧ d2 < d1 ∧ 2 * d2 = d1 := by
  rcases loginDeadlines_cases env c with h0 | h0 | h0
  · rw [h0] at h; cases h
  · rw [h0] at h; cases h
  · rw [h0] at h
    cases h
    refine ⟨rfl, ?_, ?_, ?_, ?_⟩ <;> simp [Minute, Second]

/-- C5 amended, witness: the run in which every batch times out. -/
theorem retry_deadline_lt_first_witness :
    loginDeadlines sampleConsole.vmi (LoginToFedora envSilent sampleConsole).2 =
      [2 * Minute, 1 * Minute] ∧
    (1 * Minute : Duration) < 2 * Minute :=
  have h0 : loginDeadlines sampleConsole.vmi (LoginToFedora envSilent sampleConsole).2 =
      [2 * Minute, 1 * Minute] := by decide
  ⟨h0, (retry_deadline_lt_first envSilent sampleConsole (2 * Minute) (1 * Minute) [] h0).2.2.2.1⟩

/-! ### C6: the incorrect-credentials case -/

/-- C6 as stated fails: the third case of the login batch, `Login incorrect`, is not
terminal. Its tag is the Continue tag (not the Fail tag) and it has a retry budget of 10,
so its first match does not abort the batch: matching starts over, with 9 retries left. -/
theorem login_incorrect_counterexample :
    ((loginCases sampleConsole.vmi)[2]?).map
        (fun k => (k.R, k.T.tag, k.Rt, (onMatch k).1, (onMatch k).2.Rt)) =
      some ("Login incorrect", Tag.ContinueTag, 10, Verdict.again, 9) ∧
    Tag.ContinueTag ≠ Tag.FailTag ∧
    Verdict.again ≠
      Verdict.returned (some (Error.status (NewStatus Code.PermissionDenied "login failed"))) := by
  refine ⟨?_, ?_, ?_⟩
  · decide
  · decide
  · decide

/-- C6 amended: in the login batch the incorrect-credentials case (pattern
`Login incorrect`) carries the PermissionDenied status "login failed" under the
log-and-continue tag with a retry budget of 10: each of its first ten matches starts
matching over, and the eleventh match returns the PermissionDenied failure. It sends no
bytes, and it sits third in the declared order, after the login-banner case and the
password-prompt case (each of which sends "fedora\n" and loops back) and before the
user-shell-prompt success case. -/
theorem loginCases_order (vmi : VirtualMachineInstance) :
    ∃ banner password incorrect prompt : Case,
      loginBatch vmi =
        [ Batcher.BSnd "\n", Batcher.BSnd "\n",
          Batcher.BCas [banner, password, incorrect, prompt],
          Batcher.BSnd "sudo su\n", Batcher.BExp "(\\$ |\\# )" ] ∧
      banner.R = "(localhost|fedora|" ++ vmi.Name ++ ") login: " ∧
      banner.S = "fedora\n" ∧ banner.T.tag = Tag.NextTag ∧
      (onMatch banner).1 = Verdict.again ∧
      password.R = "Password:" ∧
      password.S = "fedora\n" ∧ password.T.tag = Tag.NextTag ∧
      (onMatch password).1 = Verdict.again ∧
      incorrect.R = "Login incorrect" ∧
      incorrect.S = "" ∧
      incorrect.T = ⟨some "Failed to log in", Tag.ContinueTag,
        ⟨Code.PermissionDenied, "login failed"⟩⟩ ∧
      incorrect.Rt = 10 ∧
      (∀ n, n < 10 → (nthMatch incorrect n).1 = Verdict.again) ∧
      (nthMatch incorrect 10).1 =
        Verdict.returned (some (Error.status ⟨Code.PermissionDenied, "login failed"⟩)) ∧
      prompt.R = "\\[fedora@(localhost|fedora|" ++ vmi.Name ++ ") ~\\]\\$ " ∧
      prompt.S = "" ∧ prompt.T.tag = Tag.OKTag ∧
      (onMatch prompt).1 = Verdict.returned none := by
  refine ⟨_, _, _, _, rfl, rfl, rfl, rfl, rfl, rfl, rfl, rfl, rfl, rfl, rfl, rfl, rfl,
    ?_, ?_, rfl, rfl, rfl, rfl⟩
  · intro n hn
    interval_cases n <;> decide
  · decide

/-! ### C7: the configuration batch -/

/-- C7: `configureConsole` executes exactly one batch, once, with a 30 second deadline, and
returns that batch's error unmodified. The batch is the two commands
`stty cols 500 rows 500` and `dmesg -n 1`, each expanded to four steps: send the command
with a newline, expect `PromptExpression`, send "echo $?\n", expect `RetValue "0"`; and
`RetValue r` is "\n" ++ r ++ "\r\n" ++ ".*" ++ `PromptExpression`. -/
theorem configureConsole_one_batch (env : Env) (tr : List Op) :
    configureConsole env tr =
      (env.respond tr (Op.ExpectBatch configureBatch (30 * Second)),
        tr ++ [Op.ExpectBatch configureBatch (30 * Second)]) ∧
    configureBatch =
      List.flatMap ["stty cols 500 rows 500", "dmesg -n 1"] (fun cmd =>
        [ Batcher.BSnd (cmd ++ "\n"), Batcher.BExp PromptExpression,
          Batcher.BSnd "echo $?\n", Batcher.BExp (RetValue "0") ]) ∧
    PromptExpression = "(\\$ |\\# )" ∧
    (∀ r : String, RetValue r = "\n" ++ r ++ "\r\n" ++ ".*" ++ PromptExpression) ∧
    RetValue "0" = "\n0\r\n.*(\\$ |\\# )" := by
  refine ⟨rfl, ?_, rfl, fun _ => rfl, ?_⟩
  · decide
  · decide

/-! ## Theorems: cmparser.go -/

/-! ### Strings and maps -/

theorem hasPrefix_iff (s pre : String) :
    HasPrefix s pre = true ↔ ∃ t : String, s = pre ++ t := by
  unfold HasPrefix
  rw [List.isPrefixOf_iff_prefix]
  constructor
  · rintro ⟨t, ht⟩
    exact ⟨⟨t⟩, String.ext (by simp [String.data_append, ht])⟩
  · rintro ⟨t, rfl⟩
    exact ⟨t.data, by simp [String.data_append]⟩

theorem hasPrefix_append (pre t : String) : HasPrefix (pre ++ t) pre = true :=
  (hasPrefix_iff _ _).2 ⟨t, rfl⟩

theorem trimPrefix_append (pre t : String) : TrimPrefix (pre ++ t) pre = t := by
  unfold TrimPrefix
  rw [if_pos (hasPrefix_append pre t)]
  apply String.ext
  simp [String.data_append]

theorem append_eq_self_iff (pre t : String) : pre ++ t = pre ↔ t = "" := by
  constructor
  · intro h
    have h1 : (pre ++ t).data = pre.data := by rw [h]
    rw [String.data_append] at h1
    apply String.ext
    simpa using h1
  · rintro rfl
    apply String.ext
    simp [String.data_append]

theorem append_left_cancel (pre a b : String) (h : pre ++ a = pre ++ b) : a = b := by
  have h1 : (pre ++ a).data = (pre ++ b).data := by rw [h]
  rw [String.data_append, String.data_append] at h1
  exact String.ext (List.append_cancel_left h1)

/-- Distinct prefixed keys have distinct parameter names. -/
theorem trimPrefix_injective (pre k1 k2 : String) (h1 : HasPrefix k1 pre = true)
    (h2 : HasPrefix k2 pre = true) (h : TrimPrefix k1 pre = TrimPrefix k2 pre) : k1 = k2 := by
  obtain ⟨t1, rfl⟩ := (hasPrefix_iff _ _).1 h1
  obtain ⟨t2, rfl⟩ := (hasPrefix_iff _ _).1 h2
  rw [trimPrefix_append, trimPrefix_append] at h
  rw [h]

theorem mapGet_eq_some_iff (m : GoMap) (hnd : (mapKeys m).Nodup) (k v : String) :
    mapGet m k = some v ↔ (k, v) ∈ m := by
  induction m with
  | nil => simp [mapGet]
  | cons kv m ih =>
    obtain ⟨k1, v1⟩ := kv
    have hnd2 : k1 ∉ mapKeys m ∧ (mapKeys m).Nodup := by
      simpa [mapKeys] using hnd
    unfold mapGet
    by_cases h : k1 = k
    · subst h
      have hno : ∀ w, (k1, w) ∉ m := by
        intro w hw
        exact hnd2.1 (List.mem_map.2 ⟨(k1, w), hw, rfl⟩)
      simp only [if_true, List.mem_cons, Prod.mk.injEq, true_and, Option.some.injEq]
      constructor
      · intro e; exact Or.inl e.symm
      · rintro (e | e)
        · exact e.symm
        · exact absurd e (hno v)
    · have h2 : ¬ k = k1 := fun e => h e.symm
      simp only [h, if_false, ih hnd2.2, List.mem_cons, Prod.mk.injEq, h2, false_and, false_or]

theorem mapGet_perm (m1 m2 : GoMap) (hp : m1.Perm m2) (hnd : (mapKeys m2).Nodup)
    (k : String) : mapGet m1 k = mapGet m2 k := by
  have hnd1 : (mapKeys m1).Nodup := (hp.map Prod.fst).nodup_iff.2 hnd
  apply Option.ext
  intro v
  rw [Option.mem_def, Option.mem_def, mapGet_eq_some_iff m1 hnd1, mapGet_eq_some_iff m2 hnd,
    hp.mem_iff]

theorem mapSet_of_not_mem (m : GoMap) (k v : String) (h : k ∉ mapKeys m) :
    mapSet m k v = m ++ [(k, v)] := by
  induction m with
  | nil => rfl
  | cons kv m ih =>
    obtain ⟨k1, v1⟩ := kv
    have h1 : ¬ k1 = k ∧ k ∉ mapKeys m := by
      constructor
      · intro e; exact h (by simp [mapKeys, e])
      · intro e; exact h (by simp only [mapKeys, List.map_cons, List.mem_cons]; exact Or.inr e)
    simp [mapSet, h1.1, ih h1.2]

/-! ### The loop of `parseParamsField` -/

/-- A prefixed key has an empty parameter name exactly when it is the prefix itself. -/
theorem trimPrefix_eq_empty_iff (pre k : String) (h : HasPrefix k pre = true) :
    TrimPrefix k pre = "" ↔ k = pre := by
  obtain ⟨t, rfl⟩ := (hasPrefix_iff _ _).1 h
  rw [trimPrefix_append, append_eq_self_iff]

theorem hasPrefix_self (pre : String) : HasPrefix pre pre = true :=
  (hasPrefix_iff _ _).2 ⟨"", ((append_eq_self_iff pre "").2 rfl).symm⟩

theorem mem_mapKeys_cons (x k v : String) (l : List (String × String)) :
    x ∈ mapKeys ((k, v) :: l) ↔ x = k ∨ x ∈ mapKeys l := by
  simp [mapKeys]

theorem parseParamsLoop_error (I : Imports) (l : List (String × String))
    (cmp : configMapParser) :
    (parseParamsLoop I l cmp).1 =
      if I.ParamNameKeyPrefix ∈ mapKeys l then some ConfigError.ErrParamNameIsIllegal
      else none := by
  induction l generalizing cmp with
  | nil => simp [parseParamsLoop, mapKeys]
  | cons kv l ih =>
    obtain ⟨k, v⟩ := kv
    unfold parseParamsLoop
    by_cases hp : HasPrefix k I.ParamNameKeyPrefix = true
    · by_cases he : TrimPrefix k I.ParamNameKeyPrefix = ""
      · have hk : k = I.ParamNameKeyPrefix := (trimPrefix_eq_empty_iff _ _ hp).1 he
        rw [if_pos ((mem_mapKeys_cons _ _ _ _).2 (Or.inl hk.symm))]
        simp only [hp, he, if_true]
      · have hk : ¬ I.ParamNameKeyPrefix = k := fun e =>
          he ((trimPrefix_eq_empty_iff _ _ hp).2 e.symm)
        simp only [hp, he, if_true, if_false, ih]
        by_cases hm : I.ParamNameKeyPrefix ∈ mapKeys l
        · rw [if_pos hm, if_pos ((mem_mapKeys_cons _ _ _ _).2 (Or.inr hm))]
        · rw [if_neg hm, if_neg (fun e => ((mem_mapKeys_cons _ _ _ _).1 e).elim hk hm)]
    · have hk : ¬ I.ParamNameKeyPrefix = k := fun e => hp (e ▸ hasPrefix_self _)
      simp only [hp, Bool.false_eq_true, if_false, ih]
      by_cases hm : I.ParamNameKeyPrefix ∈ mapKeys l
      · rw [if_pos hm, if_pos ((mem_mapKeys_cons _ _ _ _).2 (Or.inr hm))]
      · rw [if_neg hm, if_neg (fun e => ((mem_mapKeys_cons _ _ _ _).1 e).elim hk hm)]

/-- With no illegal key, names that are new to `Params` and pairwise distinct, the loop
appends the stripped entries to `Params` in iteration order. -/
theorem parseParamsLoop_params (I : Imports) (l : List (String × String))
    (cmp : configMapParser) (hno : I.ParamNameKeyPrefix ∉ mapKeys l)
    (hnd : (mapKeys (strippedParams I l)).Nodup)
    (hdis : ∀ p, p ∈ mapKeys (strippedParams I l) → p ∉ mapKeys cmp.Params) :
    (parseParamsLoop I l cmp).2.Params = cmp.Params ++ strippedParams I l := by
  induction l generalizing cmp with
  | nil => simp [parseParamsLoop, strippedParams]
  | cons kv l ih =>
    obtain ⟨k, v⟩ := kv
    have hno2 : I.ParamNameKeyPrefix ∉ mapKeys l := by
      intro e; exact hno (by simp only [mapKeys, List.map_cons, List.mem_cons]; exact Or.inr e)
    unfold parseParamsLoop
    by_cases hp : HasPrefix k I.ParamNameKeyPrefix = true
    · have hs : strippedParams I ((k, v) :: l) =
          (TrimPrefix k I.ParamNameKeyPrefix, v) :: strippedParams I l := by
        simp [strippedParams, hp]
      have he : ¬ TrimPrefix k I.ParamNameKeyPrefix = "" := by
        intro e
        have hk := (trimPrefix_eq_empty_iff _ _ hp).1 e
        exact hno (by simp [mapKeys, hk])
      rw [hs] at hnd hdis
      have hnd2 : TrimPrefix k I.ParamNameKeyPrefix ∉ mapKeys (strippedParams I l) ∧
          (mapKeys (strippedParams I l)).Nodup := by
        simpa [mapKeys] using hnd
      have hnew : TrimPrefix k I.ParamNameKeyPrefix ∉ mapKeys cmp.Params :=
        hdis _ (by simp [mapKeys])
      simp only [hp, he, if_true, if_false]
      rw [ih _ hno2 hnd2.2, hs]
      · simp [mapSet_of_not_mem _ _ _ hnew]
      · intro p hp1
        simp only [mapSet_of_not_mem _ _ _ hnew, mapKeys, List.map_append, List.map_cons,
          List.map_nil, List.mem_append, List.mem_singleton, not_or]
        constructor
        · exact hdis p (by simp only [mapKeys, List.map_cons, List.mem_cons]; exact Or.inr hp1)
        · intro e
          exact hnd2.1 (e ▸ hp1)
    · have hs : strippedParams I ((k, v) :: l) = strippedParams I l := by
        simp [strippedParams, hp]
      rw [hs] at hnd hdis
      simp only [hp, Bool.false_eq_true, if_false]
      rw [ih _ hno2 hnd hdis, hs]

/-- The names of the stripped entries of a map are distinct, as its keys are. -/
theorem strippedParams_nodup (I : Imports) (raw : GoMap) (hnd : (mapKeys raw).Nodup) :
    (mapKeys (strippedParams I raw)).Nodup := by
  induction raw with
  | nil => simp [strippedParams, mapKeys]
  | cons kv l ih =>
    obtain ⟨k, v⟩ := kv
    have hnd2 : k ∉ mapKeys l ∧ (mapKeys l).Nodup := by
      simpa [mapKeys] using hnd
    by_cases hp : HasPrefix k I.ParamNameKeyPrefix = true
    · have hs : strippedParams I ((k, v) :: l) =
          (TrimPrefix k I.ParamNameKeyPrefix, v) :: strippedParams I l := by
        simp [strippedParams, hp]
      rw [hs]
      simp only [mapKeys, List.map_cons, List.nodup_cons]
      refine ⟨?_, ih hnd2.2⟩
      intro hmem
      obtain ⟨kv2, hkv2, hname⟩ := List.mem_map.1 hmem
      simp only [strippedParams, List.mem_map, List.mem_filter] at hkv2
      obtain ⟨kv3, ⟨hin, hp3⟩, rfl⟩ := hkv2
      have : kv3.1 = k := trimPrefix_injective _ _ _ hp3 hp hname
      exact hnd2.1 (this ▸ List.mem_map.2 ⟨kv3, hin, rfl⟩)
    · have hs : strippedParams I ((k, v) :: l) = strippedParams I l := by
        simp [strippedParams, hp]
      rw [hs]
      exact ih hnd2.2

/-- Looking a name up in the stripped entries is looking the prefixed key up in the map. -/
theorem mapGet_strippedParams (I : Imports) (raw : GoMap) (p : String) :
    mapGet (strippedParams I raw) p = mapGet raw (I.ParamNameKeyPrefix ++ p) := by
  induction raw with
  | nil => rfl
  | cons kv l ih =>
    obtain ⟨k, v⟩ := kv
    by_cases hp : HasPrefix k I.ParamNameKeyPrefix = true
    · have hs : strippedParams I ((k, v) :: l) =
          (TrimPrefix k I.ParamNameKeyPrefix, v) :: strippedParams I l := by
        simp [strippedParams, hp]
      rw [hs]
      obtain ⟨t, rfl⟩ := (hasPrefix_iff _ _).1 hp
      rw [trimPrefix_append]
      unfold mapGet
      by_cases e : t = p
      · subst e; simp
      · have e2 : ¬ I.ParamNameKeyPrefix ++ t = I.ParamNameKeyPrefix ++ p := fun h =>
          e (append_left_cancel _ _ _ h)
        simp only [e, e2, if_false, ih]
    · have hs : strippedParams I ((k, v) :: l) = strippedParams I l := by
        simp [strippedParams, hp]
      rw [hs, ih]
      have e2 : ¬ k = I.ParamNameKeyPrefix ++ p := fun h => hp (h ▸ hasPrefix_append _ _)
      simp [mapGet, e2]

/-! ### `Parse` -/

theorem roles_params (I : Imports) (cmp : configMapParser) :
    (parseRoleNamesField I (parseClusterRoleNamesField I cmp)).Params = cmp.Params := by
  unfold parseRoleNamesField parseClusterRoleNamesField
  simp only []
  split <;> split <;> rfl

/-- The first components of the three fallible steps decide the error of `Parse`. -/
theorem Parse_steps (I : Imports) (cmp : configMapParser) :
    (Parse I cmp).1 =
      match (parseImageField I cmp).1 with
      | some err => some err
      | none =>
        match (parseTimeoutField I (parseImageField I cmp).2).1 with
        | some err => some err
        | none =>
          (parseParamsField I (parseTimeoutField I (parseImageField I cmp).2).2).1 := by
  unfold Parse
  rcases h1 : parseImageField I cmp with ⟨_ | e1, c1⟩
  · rcases h2 : parseTimeoutField I c1 with ⟨_ | e2, c2⟩
    · rcases h3 : parseParamsField I c2 with ⟨_ | e3, c3⟩ <;> simp [h2, h3]
    · simp [h2]
  · simp

/-- On success, `Params` is what the loop of `parseParamsField` leaves. -/
theorem ok_Parse_params_from_loop (I : Imports) (cmp : configMapParser)
    (hok : (Parse I cmp).1 = none) :
    (Parse I cmp).2.Params =
      (parseParamsField I (parseTimeoutField I (parseImageField I cmp).2).2).2.Params := by
  unfold Parse at hok ⊢
  rcases h1 : parseImageField I cmp with ⟨_ | e1, c1⟩
  · rcases h2 : parseTimeoutField I c1 with ⟨_ | e2, c2⟩
    · rcases h3 : parseParamsField I c2 with ⟨_ | e3, c3⟩
      · simp [h2, h3, roles_params]
      · simp [h1, h2, h3] at hok
    · simp [h1, h2] at hok
  · simp [h1] at hok

theorem parseImageField_spec (I : Imports) (cmp : configMapParser) :
    (parseImageField I cmp).1 =
      (if mapGet cmp.configMapRawData I.ImageKey = none then
        some ConfigError.ErrImageFieldIsMissing
      else if mapGet cmp.configMapRawData I.ImageKey = some "" then
        some ConfigError.ErrImageFieldIsIllegal
      else none) ∧
    (parseImageField I cmp).2.configMapRawData = cmp.configMapRawData ∧
    (parseImageField I cmp).2.Params = cmp.Params := by
  unfold parseImageField
  cases h : mapGet cmp.configMapRawData I.ImageKey with
  | none => simp
  | some img =>
    by_cases e : img = ""
    · simp [e]
    · simp [e]

theorem parseTimeoutField_spec (I : Imports) (cmp : configMapParser) :
    (parseTimeoutField I cmp).1 =
      (if mapGet cmp.configMapRawData I.TimeoutKey = none then
        some ConfigError.ErrTimeoutFieldIsMissing
      else if (mapGet cmp.configMapRawData I.TimeoutKey).bind I.ParseDuration = none then
        some ConfigError.ErrTimeoutFieldIsIllegal
      else none) ∧
    (parseTimeoutField I cmp).2.configMapRawData = cmp.configMapRawData ∧
    (parseTimeoutField I cmp).2.Params = cmp.Params := by
  unfold parseTimeoutField
  cases h : mapGet cmp.configMapRawData I.TimeoutKey with
  | none => simp
  | some t =>
    cases h2 : I.ParseDuration t with
    | none => simp [h2]
    | some d => simp [h2]

/-- The error of `Parse` is the first error that applies. -/
theorem Parse_fst_eq_firstError (I : Imports) (cmp : configMapParser) :
    (Parse I cmp).1 = firstError I cmp.configMapRawData := by
  rw [Parse_steps]
  obtain ⟨hi, hiraw, -⟩ := parseImageField_spec I cmp
  obtain ⟨ht, htraw, -⟩ := parseTimeoutField_spec I (parseImageField I cmp).2
  rw [hiraw] at ht htraw
  unfold parseParamsField
  rw [parseParamsLoop_error, htraw, hi, ht]
  unfold firstError
  by_cases c1 : mapGet cmp.configMapRawData I.ImageKey = none
  · simp [c1]
  · by_cases c2 : mapGet cmp.configMapRawData I.ImageKey = some ""
    · simp [c2]
    · by_cases c3 : mapGet cmp.configMapRawData I.TimeoutKey = none
      · simp [c1, c2, c3]
      · by_cases c4 : (mapGet cmp.configMapRawData I.TimeoutKey).bind I.ParseDuration = none
        · simp only [c1, c2, c3, c4, if_true, if_false]
        · simp only [c1, c2, c3, c4, if_false]

theorem firstError_eq_none_iff (I : Imports) (raw : GoMap) :
    firstError I raw = none ↔
      (∃ img, mapGet raw I.ImageKey = some img ∧ img ≠ "") ∧
      (∃ t d, mapGet raw I.TimeoutKey = some t ∧ I.ParseDuration t = some d) ∧
      I.ParamNameKeyPrefix ∉ mapKeys raw := by
  unfold firstError
  cases h1 : mapGet raw I.ImageKey with
  | none => simp
  | some img =>
    by_cases e : img = ""
    · simp [e]
    · cases h2 : mapGet raw I.TimeoutKey with
      | none => simp [e]
      | some t =>
        cases h3 : I.ParseDuration t with
        | none => simp [e, h3]
        | some d => simp [e, h3]

theorem firstError_perm (I : Imports) (raw1 raw2 : GoMap) (hp : raw1.Perm raw2)
    (hnd : (mapKeys raw2).Nodup) : firstError I raw1 = firstError I raw2 := by
  have hk : I.ParamNameKeyPrefix ∈ mapKeys raw1 ↔ I.ParamNameKeyPrefix ∈ mapKeys raw2 :=
    (hp.map Prod.fst).mem_iff
  unfold firstError
  rw [mapGet_perm raw1 raw2 hp hnd, mapGet_perm raw1 raw2 hp hnd]
  by_cases hm : I.ParamNameKeyPrefix ∈ mapKeys raw2
  · rw [if_pos hm, if_pos (hk.2 hm)]
  · rw [if_neg hm, if_neg (fun e => hm (hk.1 e))]

/-- On success from a fresh parser over a map, `Params` is the list of stripped entries. -/
theorem fresh_Parse_gives_stripped (I : Imports) (raw : GoMap) (hnd : (mapKeys raw).Nodup)
    (hok : (Parse I (newConfigMapParser raw)).1 = none) :
    (Parse I (newConfigMapParser raw)).2.Params = strippedParams I raw := by
  have hfe : firstError I raw = none := by
    rw [← hok, Parse_fst_eq_firstError]; rfl
  have hno := ((firstError_eq_none_iff I raw).1 hfe).2.2
  rw [ok_Parse_params_from_loop I _ hok]
  obtain ⟨-, hiraw, hipar⟩ := parseImageField_spec I (newConfigMapParser raw)
  obtain ⟨-, htraw, htpar⟩ := parseTimeoutField_spec I (parseImageField I (newConfigMapParser raw)).2
  unfold parseParamsField
  have hraw : (parseTimeoutField I (parseImageField I (newConfigMapParser raw)).2).2.configMapRawData
      = raw := by rw [htraw, hiraw]; rfl
  have hpar : (parseTimeoutField I (parseImageField I (newConfigMapParser raw)).2).2.Params
      = [] := by rw [htpar, hipar]; rfl
  rw [hraw, parseParamsLoop_params I raw _ hno (strippedParams_nodup I raw hnd), hpar]
  · simp
  · intro p _
    rw [hpar]
    simp [mapKeys]

/-! ### C8: the error of `Parse` -/

/-- C8: `Parse` returns no error if and only if the image key is present with a non-empty
value, the timeout key is present with a value `time.ParseDuration` accepts, and no key of
the map is exactly the parameter-name prefix (a prefixed key with an empty name); and its
error is always the first that applies in the order image missing, image illegal, timeout
missing, timeout illegal, parameter name illegal. The role fields play no part. -/
theorem Parse_error_characterised (I : Imports) (cmp : configMapParser) :
    ((Parse I cmp).1 = none ↔
      (∃ img, mapGet cmp.configMapRawData I.ImageKey = some img ∧ img ≠ "") ∧
      (∃ t d, mapGet cmp.configMapRawData I.TimeoutKey = some t ∧
        I.ParseDuration t = some d) ∧
      I.ParamNameKeyPrefix ∉ mapKeys cmp.configMapRawData) ∧
    (Parse I cmp).1 = firstError I cmp.configMapRawData ∧
    (∀ k, (HasPrefix k I.ParamNameKeyPrefix = true ∧ TrimPrefix k I.ParamNameKeyPrefix = "") ↔
      k = I.ParamNameKeyPrefix) := by
  refine ⟨?_, Parse_fst_eq_firstError I cmp, ?_⟩
  · rw [Parse_fst_eq_firstError, firstError_eq_none_iff]
  · intro k
    constructor
    · rintro ⟨h1, h2⟩
      exact (trimPrefix_eq_empty_iff _ _ h1).1 h2
    · rintro rfl
      exact ⟨hasPrefix_self _, (trimPrefix_eq_empty_iff _ _ (hasPrefix_self _)).2 rfl⟩

/-! ### C9: the parameters -/

/-- C9: when `Parse` succeeds on a fresh parser over a raw map, a name `p` maps to `v` in
`Params` if and only if the raw map maps the key prefix ++ `p` to `v`; distinct prefixed
keys give distinct names; `Params` has as many entries as the raw map has prefixed keys;
and iterating the raw map in another order gives the same `Params` map. -/
theorem Params_are_stripped_entries (I : Imports) (raw : GoMap) (hnd : (mapKeys raw).Nodup)
    (hok : (Parse I (newConfigMapParser raw)).1 = none) :
    (∀ p v, mapGet (Parse I (newConfigMapParser raw)).2.Params p = some v ↔
      mapGet raw (I.ParamNameKeyPrefix ++ p) = some v) ∧
    (∀ k1 k2, HasPrefix k1 I.ParamNameKeyPrefix = true →
      HasPrefix k2 I.ParamNameKeyPrefix = true →
      TrimPrefix k1 I.ParamNameKeyPrefix = TrimPrefix k2 I.ParamNameKeyPrefix → k1 = k2) ∧
    (mapKeys (Parse I (newConfigMapParser raw)).2.Params).Nodup ∧
    (Parse I (newConfigMapParser raw)).2.Params.length =
      ((mapKeys raw).filter (fun k => HasPrefix k I.ParamNameKeyPrefix)).length ∧
    (∀ raw2 : GoMap, raw2.Perm raw →
      (Parse I (newConfigMapParser raw2)).1 = none ∧
      (Parse I (newConfigMapParser raw2)).2.Params.Perm
        (Parse I (newConfigMapParser raw)).2.Params ∧
      ∀ p, mapGet (Parse I (newConfigMapParser raw2)).2.Params p =
        mapGet (Parse I (newConfigMapParser raw)).2.Params p) := by
  have hP := fresh_Parse_gives_stripped I raw hnd hok
  refine ⟨?_, ?_, ?_, ?_, ?_⟩
  · intro p v
    rw [hP, mapGet_strippedParams]
  · intro k1 k2 h1 h2 h
    exact trimPrefix_injective _ _ _ h1 h2 h
  · rw [hP]
    exact strippedParams_nodup I raw hnd
  · rw [hP]
    simp [strippedParams, mapKeys, List.filter_map, Function.comp_def]
  · intro raw2 hperm
    have hnd2 : (mapKeys raw2).Nodup := (hperm.map Prod.fst).nodup_iff.2 hnd
    have hok2 : (Parse I (newConfigMapParser raw2)).1 = none := by
      rw [Parse_fst_eq_firstError]
      have h2 : firstError I raw = none := by rw [← hok, Parse_fst_eq_firstError]; rfl
      exact (firstError_perm I raw2 raw hperm hnd).trans h2
    have hP2 := fresh_Parse_gives_stripped I raw2 hnd2 hok2
    refine ⟨hok2, ?_, ?_⟩
    · rw [hP, hP2]
      exact (hperm.filter _).map _
    · intro p
      rw [hP, hP2, mapGet_strippedParams, mapGet_strippedParams]
      exact mapGet_perm raw2 raw hperm hnd _

/-- C9 witness: a raw map with two parameters. -/
theorem Params_are_stripped_entries_witness :
    (mapKeys sampleRaw).Nodup ∧
    (Parse sampleImports (newConfigMapParser sampleRaw)).1 = none ∧
    (Parse sampleImports (newConfigMapParser sampleRaw)).2.Params = [("b", "2"), ("a", "1")] ∧
    (Parse sampleImports (newConfigMapParser sampleRaw)).2.Params.length =
      ((mapKeys sampleRaw).filter
        (fun k => HasPrefix k sampleImports.ParamNameKeyPrefix)).length :=
  ⟨by decide, by decide, by decide,
    (Params_are_stripped_entries sampleImports sampleRaw (by decide) (by decide)).2.2.2.1⟩

/-! ### C10: lists separated by newlines -/

theorem splitNewlines_ne_nil (s cur : List Char) : splitNewlines s cur ≠ [] := by
  induction s generalizing cur with
  | nil => simp [splitNewlines]
  | cons c cs ih =>
    unfold splitNewlines
    split
    · simp
    · exact ih _

theorem splitNewlines_length (s cur : List Char) :
    (splitNewlines s cur).length = s.count '\n' + 1 := by
  induction s generalizing cur with
  | nil => simp [splitNewlines]
  | cons c cs ih =>
    unfold splitNewlines
    by_cases h : c = '\n'
    · subst h
      simp [ih]
    · have h2 : ¬ (c == '\n') = true := by simpa using h
      simp [h, ih, List.count_cons, h2]

theorem splitNewlines_no_newline (s cur : List Char) (hcur : '\n' ∉ cur) :
    ∀ x ∈ splitNewlines s cur, '\n' ∉ x := by
  induction s generalizing cur with
  | nil =>
    intro x hx
    simp only [splitNewlines, List.mem_singleton] at hx
    subst hx
    simpa using hcur
  | cons c cs ih =>
    unfold splitNewlines
    by_cases h : c = '\n'
    · simp only [h, if_true, List.mem_cons]
      rintro x (hx | hx)
      · subst hx; simpa using hcur
      · exact ih [] (by simp) x hx
    · simp only [h, if_false]
      apply ih
      simp only [List.mem_cons, not_or]
      exact ⟨fun e => h e.symm, hcur⟩

theorem intercalate_cons_of_ne_nil (sep x : List Char) (t : List (List Char)) (ht : t ≠ []) :
    List.intercalate sep (x :: t) = x ++ sep ++ List.intercalate sep t := by
  cases t with
  | nil => exact absurd rfl ht
  | cons y ys => simp [List.intercalate, List.intersperse]

theorem splitNewlines_intercalate (s cur : List Char) :
    List.intercalate ['\n'] (splitNewlines s cur) = cur.reverse ++ s := by
  induction s generalizing cur with
  | nil => simp [splitNewlines, List.intercalate, List.intersperse]
  | cons c cs ih =>
    unfold splitNewlines
    by_cases h : c = '\n'
    · simp only [h, if_true]
      rw [intercalate_cons_of_ne_nil _ _ _ (splitNewlines_ne_nil cs []), ih]
      simp
    · simp only [h, if_false]
      rw [ih]
      simp

theorem trimSpace_of_all_space (raw : String) (h : ∀ c ∈ raw.data, isSpace c = true) :
    TrimSpace raw = "" := by
  unfold TrimSpace
  have h1 : raw.data.dropWhile isSpace = [] := List.dropWhile_eq_nil_iff.2 h
  rw [h1]
  rfl

theorem roleField_unset_iff (m : GoMap) (k : String) :
    mapIndex m k = "" ↔ mapGet m k = none ∨ mapGet m k = some "" := by
  unfold mapIndex
  cases mapGet m k with
  | none => simp
  | some v => simp

/-- C10: `parseListSeparatedByNewlines raw` is a non-empty list whose elements contain no
newline and whose join with "\n" is `raw` trimmed of white space; its length is one more
than the number of newlines in the trimmed string. Elements are neither trimmed nor
filtered one by one, a value made of white space only gives the list of the empty string,
and the two role fields stay unset exactly when the key is missing or its value is the
empty string. -/
theorem parseListSeparatedByNewlines_spec (raw : String) :
    parseListSeparatedByNewlines raw ≠ [] ∧
    (∀ x ∈ parseListSeparatedByNewlines raw, '\n' ∉ x.data) ∧
    Join (parseListSeparatedByNewlines raw) "\n" = TrimSpace raw ∧
    (parseListSeparatedByNewlines raw).length = (TrimSpace raw).data.count '\n' + 1 ∧
    ((∀ c ∈ raw.data, isSpace c = true) → parseListSeparatedByNewlines raw = [""]) ∧
    parseListSeparatedByNewlines " a\n\n b \n" = ["a", "", " b"] ∧
    (∀ (I : Imports) (cmp : configMapParser), cmp.ClusterRoleNames = none →
      ((parseClusterRoleNamesField I cmp).ClusterRoleNames = none ↔
        mapGet cmp.configMapRawData I.ClusterRolesKey = none ∨
        mapGet cmp.configMapRawData I.ClusterRolesKey = some "")) ∧
    (∀ (I : Imports) (cmp : configMapParser), cmp.RoleNames = none →
      ((parseRoleNamesField I cmp).RoleNames = none ↔
        mapGet cmp.configMapRawData I.RolesKey = none ∨
        mapGet cmp.configMapRawData I.RolesKey = some "")) := by
  refine ⟨?_, ?_, ?_, ?_, ?_, ?_, ?_, ?_⟩
  · simp [parseListSeparatedByNewlines, SplitNewline, splitNewlines_ne_nil]
  · intro x hx
    simp only [parseListSeparatedByNewlines, SplitNewline, List.mem_map] at hx
    obtain ⟨y, hy, rfl⟩ := hx
    exact splitNewlines_no_newline _ [] (by simp) y hy
  · simp only [parseListSeparatedByNewlines, SplitNewline, Join, List.map_map]
    apply String.ext
    have hid : (String.data ∘ String.mk) = id := by funext x; rfl
    have hsep : ("\n" : String).data = ['\n'] := rfl
    simp [hid, hsep, splitNewlines_intercalate]
  · simp [parseListSeparatedByNewlines, SplitNewline, splitNewlines_length]
  · intro h
    simp only [parseListSeparatedByNewlines, trimSpace_of_all_space raw h]
    rfl
  · decide
  · intro I cmp h0
    rw [← roleField_unset_iff]
    unfold parseClusterRoleNamesField
    by_cases e : mapIndex cmp.configMapRawData I.ClusterRolesKey = ""
    · simp [e, h0]
    · simp [e]
  · intro I cmp h0
    rw [← roleField_unset_iff]
    unfold parseRoleNamesField
    by_cases e : mapIndex cmp.configMapRawData I.RolesKey = ""
    · simp [e, h0]
    · simp [e]

end Kiagnose
